import Mathlib

/-!
# Verification of the back-of-the-envelope expression engine

Shallow embedding of `src/estimator.py`: the scale preprocessor
(`_preprocess_scale`), the unit extractor (`_parse_units`), the guarded
arithmetic evaluator (`_safe_eval`), the formatting helpers
(`_format_magnitude`, `_format_number`, the byte-threshold table) and the
public entry point `evaluate`.

Modelling conventions:
* Python strings are modelled as `List Char` internally, `String` at the
  public boundary.  The Python regular expressions used by the source are
  compiled by hand into deterministic scanners (each pattern involved is
  backtracking-free, so the scanners implement exactly the leftmost,
  non-overlapping `re.sub` / `re.search` semantics).
* `\d`, `\s`, `[a-zA-Z]`, `str.lower`, `str.strip` are modelled at their
  ASCII meaning (the source is only ever exercised on ASCII input; Python
  additionally accepts some exotic Unicode in these classes).
* IEEE-754 doubles are modelled as `ℚ`.  Every numeric step of the source
  (literal parsing, + - * / // **, unit conversions, threshold
  comparisons, rounding) is exact on the inputs relevant here; the model
  diverges from binary floating point only in the last-ulp corner cases
  (e.g. ties inside Python's `round`).  Non-integer exponents of `**` (a
  float result in Python) are not representable in `ℚ` and are mapped to
  an evaluation error; no claim depends on them.
* `eval` restricted by the `_SAFE_MATH_RE` whitelist is modelled by a
  tokenizer and a precedence-climbing parser for Python's arithmetic
  grammar over the whitelisted characters (`+ - * / // ** ( )` and
  int/float literals with exponents).  Any Python-side exception
  (SyntaxError, ZeroDivisionError, TypeError, ...) is a failure of the
  model's evaluator; the spec's error taxonomy groups all of them as
  ArithmeticError.
* Recursions are structural; scanners and the parser thread an explicit
  fuel argument that is large enough for every input (each step consumes
  at least one character/token), so the fuel-exhausted branches are
  unreachable and kernel reduction works on concrete inputs.
-/

/-! ## Character classes and Python string primitives -/

/-- Python `\s` / `str.strip` whitespace, ASCII fragment. -/
def isSpaceChar (c : Char) : Bool :=
  c = ' ' || c = '\t' || c = '\n' || c = '\x0b' || c = '\x0c' || c = '\r'

/-- Python `[a-zA-Z]`. -/
def isAsciiLetter (c : Char) : Bool :=
  ('a' ≤ c && c ≤ 'z') || ('A' ≤ c && c ≤ 'Z')

/-- The `_SAFE_MATH_RE` character whitelist:
`^[\d\s\.\+\-\*\/\(\)eE]+$`. -/
def isSafeChar (c : Char) : Bool :=
  c.isDigit || isSpaceChar c || c = '.' || c = '+' || c = '-' || c = '*' ||
    c = '/' || c = '(' || c = ')' || c = 'e' || c = 'E'

/-- Remove trailing characters satisfying `p` (used for Python
`rstrip`). -/
def dropTrailing (p : Char → Bool) (l : List Char) : List Char :=
  (l.reverse.dropWhile p).reverse

/-- Python `str.strip()`. -/
def pyStrip (l : List Char) : List Char :=
  dropTrailing isSpaceChar (l.dropWhile isSpaceChar)

/-- Python `str.lower()` (ASCII). -/
def lowerChars (l : List Char) : List Char :=
  l.map Char.toLower

/-- Python `str.split()`: split on whitespace runs, dropping empty
pieces.  `acc` accumulates the current token reversed. -/
def splitWsAux : List Char → List Char → List (List Char)
  | [], acc => if acc = [] then [] else [acc.reverse]
  | c :: rest, acc =>
      if isSpaceChar c then
        if acc = [] then splitWsAux rest []
        else acc.reverse :: splitWsAux rest []
      else splitWsAux rest (c :: acc)

/-- Python `str.split()`. -/
def splitWs (l : List Char) : List (List Char) :=
  splitWsAux l []

/-! ## Scale preprocessor (`_preprocess_scale`)

`_WORD_MULTIPLIERS` entries are the patterns
`(\d+(?:\.\d+)?)\s+WORD` (IGNORECASE) with replacement `\1 * 1eN`;
`_SUFFIX_MULTIPLIERS` entries are `(\d+(?:\.\d+)?)\s*L(?![a-zA-Z])`
(case-sensitive single letter `L`) with replacement `\1eN`. -/

/-- Match the leading-number group `\d+(?:\.\d+)?` (greedy) at the head
of the input; returns the matched text and the remainder. -/
def matchNumFrom (s : List Char) : Option (List Char × List Char) :=
  let ds := s.takeWhile Char.isDigit
  if ds.isEmpty then none
  else
    let r := s.dropWhile Char.isDigit
    match r with
    | '.' :: r2 =>
        let fs := r2.takeWhile Char.isDigit
        if fs.isEmpty then some (ds, r)
        else some (ds ++ '.' :: fs, r2.dropWhile Char.isDigit)
    | _ => some (ds, r)

/-- Attempt one word-multiplier match at the head of the input:
number group, `\s+`, then the (lower-case) word, case-insensitively.
On success returns the replacement text (`\1` ++ `rep`) and the
remainder after the match. -/
def tryWord (word rep : List Char) (s : List Char) : Option (List Char × List Char) :=
  match matchNumFrom s with
  | none => none
  | some (numStr, r) =>
      let ws := r.takeWhile isSpaceChar
      if ws.isEmpty then none
      else
        let r2 := r.dropWhile isSpaceChar
        if lowerChars (r2.take word.length) = word then
          some (numStr ++ rep, r2.drop word.length)
        else none

/-- Attempt one suffix-multiplier match at the head of the input:
number group, `\s*`, the given letter (case-sensitive), with negative
lookahead `(?![a-zA-Z])`.  On success returns the replacement text
(`\1` ++ `rep`) and the remainder after the match. -/
def trySuffix (letter : Char) (rep : List Char) (s : List Char) :
    Option (List Char × List Char) :=
  match matchNumFrom s with
  | none => none
  | some (numStr, r) =>
      let r2 := r.dropWhile isSpaceChar
      match r2 with
      | c :: r3 =>
          if c = letter && !(match r3 with | d :: _ => isAsciiLetter d | [] => false) then
            some (numStr ++ rep, r3)
          else none
      | [] => none

/-- The `re.sub` driver: scan left to right, trying the matcher at every
position; on a match emit the replacement and continue after the match
(non-overlapping), otherwise copy one character.  Every matcher used
here consumes at least one character on success, so fuel equal to the
input length is sufficient and the fuel-exhausted branch is
unreachable. -/
def subScanAux (try1 : List Char → Option (List Char × List Char)) :
    Nat → List Char → List Char
  | _, [] => []
  | 0, s => s
  | fuel + 1, c :: rest =>
      match try1 (c :: rest) with
      | some (repl, rest2) => repl ++ subScanAux try1 fuel rest2
      | none => c :: subScanAux try1 fuel rest

/-- Model of `pattern.sub(repl, s)` for one of the multiplier patterns. -/
def subScan (try1 : List Char → Option (List Char × List Char))
    (s : List Char) : List Char :=
  subScanAux try1 s.length s

/-- Table `_WORD_MULTIPLIERS`: word (lower-cased) and replacement tail. -/
def WORD_MULTIPLIERS : List (List Char × List Char) :=
  [("trillion".data, " * 1e12".data),
   ("billion".data, " * 1e9".data),
   ("million".data, " * 1e6".data),
   ("thousand".data, " * 1e3".data)]

/-- Table `_SUFFIX_MULTIPLIERS`: suffix letter and replacement tail. -/
def SUFFIX_MULTIPLIERS : List (Char × List Char) :=
  [('T', "e12".data), ('B', "e9".data), ('M', "e6".data), ('K', "e3".data)]

/-- Model of `_preprocess_scale`: strip, then apply the word substitutions in
order, then the suffix substitutions in order. -/
def preprocessScale (expr : List Char) : List Char :=
  let s0 := pyStrip expr
  let s1 := WORD_MULTIPLIERS.foldl (fun acc wr => subScan (tryWord wr.1 wr.2) acc) s0
  SUFFIX_MULTIPLIERS.foldl (fun acc cr => subScan (trySuffix cr.1 cr.2) acc) s1

/-! ## Unit extractor (`_parse_units`) -/

/-- Canonical data-size units (values of `_BYTE_UNITS`). -/
inductive DataUnit where
  | byte | kilobyte | megabyte | gigabyte | terabyte | petabyte
deriving DecidableEq, Repr

/-- Bytes per data unit (pint's decimal byte multiples). -/
def bytesOf : DataUnit → ℚ
  | .byte => 1
  | .kilobyte => 1000
  | .megabyte => 1000000
  | .gigabyte => 1000000000
  | .terabyte => 1000000000000
  | .petabyte => 1000000000000000

/-- Canonical time units (values of `_TIME_UNITS`). -/
inductive TimeUnit where
  | second | minute | hour | day | month | year
deriving DecidableEq, Repr

/-- Seconds per time unit.  `month` is the registry's custom 30-day
month; `year` is pint's Julian year (365.25 days). -/
def secondsOf : TimeUnit → ℚ
  | .second => 1
  | .minute => 60
  | .hour => 3600
  | .day => 86400
  | .month => 2592000
  | .year => 31557600

/-- Table `_BYTE_UNITS`: lower-case token → canonical data unit. -/
def BYTE_UNITS : List (List Char × DataUnit) :=
  [("bytes".data, .byte), ("byte".data, .byte),
   ("kb".data, .kilobyte), ("kilobyte".data, .kilobyte), ("kilobytes".data, .kilobyte),
   ("mb".data, .megabyte), ("megabyte".data, .megabyte), ("megabytes".data, .megabyte),
   ("gb".data, .gigabyte), ("gigabyte".data, .gigabyte), ("gigabytes".data, .gigabyte),
   ("tb".data, .terabyte), ("terabyte".data, .terabyte), ("terabytes".data, .terabyte),
   ("pb".data, .petabyte), ("petabyte".data, .petabyte), ("petabytes".data, .petabyte)]

/-- Table `_TIME_UNITS`: lower-case token → canonical time unit. -/
def TIME_UNITS : List (List Char × TimeUnit) :=
  [("second".data, .second), ("seconds".data, .second), ("s".data, .second),
   ("minute".data, .minute), ("minutes".data, .minute), ("min".data, .minute),
   ("hour".data, .hour), ("hours".data, .hour), ("hr".data, .hour),
   ("day".data, .day), ("days".data, .day),
   ("month".data, .month), ("months".data, .month),
   ("year".data, .year), ("years".data, .year)]

/-- Table `_RATE_UNITS`: rate dropdown value → optional time unit. -/
def RATE_UNITS : List (String × Option TimeUnit) :=
  [("none", none),
   ("/s", some .second), ("/min", some .minute), ("/hour", some .hour),
   ("/day", some .day), ("/month", some .month), ("/year", some .year)]

/-- Model of `re.search(r'/\s*([a-zA-Z]+)\s*$', s)`: find the leftmost `/` that
is followed (after optional whitespace) by a run of letters and then
only whitespace up to the end of the string.  Returns the text before
the `/` and the captured letter run.  (The pattern is anchored at the
end, so at most one `/` can match and no backtracking is needed.) -/
def findSlashUnit : List Char → Option (List Char × List Char)
  | [] => none
  | c :: rest =>
      if c = '/' then
        let r1 := rest.dropWhile isSpaceChar
        let letters := r1.takeWhile isAsciiLetter
        let r2 := r1.dropWhile isAsciiLetter
        if !letters.isEmpty && r2.all isSpaceChar then some ([], letters)
        else
          match findSlashUnit rest with
          | some (pre, tok) => some (c :: pre, tok)
          | none => none
      else
        match findSlashUnit rest with
        | some (pre, tok) => some (c :: pre, tok)
        | none => none

/-- Model of `_parse_units`: strip a trailing time divisor (`/ unit`), then a
trailing data-size token; returns the residual math string and the two
optional unit tags. -/
def parseUnits (expr : List Char) : List Char × Option DataUnit × Option TimeUnit :=
  let step1 : List Char × Option TimeUnit :=
    match findSlashUnit expr with
    | some (pre, tok) =>
        match List.lookup (lowerChars tok) TIME_UNITS with
        | some u => (pyStrip pre, some u)
        | none => (expr, none)
    | none => (expr, none)
  let mathStr1 := step1.1
  let timeUnit := step1.2
  let tokens := splitWs (pyStrip mathStr1)
  match tokens.getLast? with
  | some last =>
      match List.lookup (lowerChars last) BYTE_UNITS with
      | some u =>
          (dropTrailing (fun c => c = ' ' || c = '*') (List.intercalate [' '] tokens.dropLast),
           some u, timeUnit)
      | none => (mathStr1, none, timeUnit)
  | none => (mathStr1, none, timeUnit)

/-! ## Guarded arithmetic evaluation (`_safe_eval`)

`eval(cleaned, {"__builtins__": {}}, {})` restricted to the whitelist
characters can only exercise Python's arithmetic grammar: numeric
literals (int/float, with exponents), `+ - * / // **`, unary signs and
parentheses.  Everything else the whitelist admits (stray dots, bare
`e`, juxtaposed numbers, calls like `2(3)`, ...) raises some Python
exception; the model maps every such failure to an evaluation error. -/

/-- Errors of the whole pipeline, following the spec's taxonomy: the
`ValueError`s of `_safe_eval` are ValidationError, exceptions escaping
`eval` are ArithmeticError, the unknown-target `ValueError` of
`evaluate` is UnknownUnitError.  `dimensionalityError` is outside the
spec's taxonomy: it models the pint `DimensionalityError` that escapes
`evaluate` when a quantity that still carries a time divisor is
converted with `quantity.to('byte')` (the byte-quantity branch entered
with a time unit present and no recognized rate); its message is a
placeholder for pint's unit-interpolated text. -/
inductive EvalError where
  | validationError (msg : String)
  | arithmeticError (msg : String)
  | unknownUnitError (msg : String)
  | dimensionalityError (msg : String)
deriving DecidableEq, Repr

/-- Tokens of the whitelisted arithmetic grammar. -/
inductive Tok where
  | num (v : ℚ)
  | plus | minus | star | slash | dstar | dslash | lp | rp
deriving DecidableEq, Repr

/-- Numeric value of a digit run. -/
def digitsVal (ds : List Char) : ℕ :=
  ds.foldl (fun a c => 10 * a + (c.toNat - '0'.toNat)) 0

/-- Power `b ^ n` on `ℚ`, `n : ℕ` (explicit recursion so the kernel reduces it). -/
def qnpow (b : ℚ) : ℕ → ℚ
  | 0 => 1
  | n + 1 => b * qnpow b n

/-- Power `b ^ z` on `ℚ`, `z : ℤ`. -/
def qzpow (b : ℚ) : ℤ → ℚ
  | .ofNat n => qnpow b n
  | .negSucc n => (qnpow b (n + 1))⁻¹

/-- Exponent digits (after `e`/`E` and an optional sign): at least one
digit is required, otherwise the literal is malformed. -/
def expDigits (mant : ℚ) (sign : ℤ) (s : List Char) : Option (ℚ × List Char) :=
  let ds := s.takeWhile Char.isDigit
  if ds.isEmpty then none
  else some (mant * qzpow 10 (sign * (digitsVal ds : ℤ)), s.dropWhile Char.isDigit)

/-- Optional sign of an exponent part. -/
def expPart (mant : ℚ) (s : List Char) : Option (ℚ × List Char) :=
  match s with
  | '+' :: r => expDigits mant 1 r
  | '-' :: r => expDigits mant (-1) r
  | r => expDigits mant 1 r

/-- Optional exponent after the mantissa. -/
def matchExponent (mant : ℚ) (s : List Char) : Option (ℚ × List Char) :=
  match s with
  | 'e' :: r => expPart mant r
  | 'E' :: r => expPart mant r
  | _ => some (mant, s)

/-- Lex one Python numeric literal (`5`, `5.`, `.5`, `1.25e-3`, ...).
Called only when the head is a digit or a dot. -/
def lexNumber (s : List Char) : Option (ℚ × List Char) :=
  let ip := s.takeWhile Char.isDigit
  let r := s.dropWhile Char.isDigit
  match r with
  | '.' :: r2 =>
      let fp := r2.takeWhile Char.isDigit
      let r3 := r2.dropWhile Char.isDigit
      if ip.isEmpty && fp.isEmpty then none
      else
        matchExponent ((digitsVal ip : ℚ) + (digitsVal fp : ℚ) / qnpow 10 fp.length) r3
  | _ =>
      if ip.isEmpty then none
      else matchExponent (digitsVal ip : ℚ) r

/-- Tokenizer over the whitelisted characters.  Fuel equal to the input
length is sufficient (every token consumes at least one character). -/
def tokenizeAux : Nat → List Char → Option (List Tok)
  | _, [] => some []
  | 0, _ :: _ => none
  | fuel + 1, c :: rest =>
      if isSpaceChar c then tokenizeAux fuel rest
      else if c.isDigit || c = '.' then
        match lexNumber (c :: rest) with
        | some (v, r) => (tokenizeAux fuel r).map (Tok.num v :: ·)
        | none => none
      else
        match c, rest with
        | '*', '*' :: r => (tokenizeAux fuel r).map (Tok.dstar :: ·)
        | '/', '/' :: r => (tokenizeAux fuel r).map (Tok.dslash :: ·)
        | '+', _ => (tokenizeAux fuel rest).map (Tok.plus :: ·)
        | '-', _ => (tokenizeAux fuel rest).map (Tok.minus :: ·)
        | '*', _ => (tokenizeAux fuel rest).map (Tok.star :: ·)
        | '/', _ => (tokenizeAux fuel rest).map (Tok.slash :: ·)
        | '(', _ => (tokenizeAux fuel rest).map (Tok.lp :: ·)
        | ')', _ => (tokenizeAux fuel rest).map (Tok.rp :: ·)
        | _, _ => none

/-- Tokenize a whitelisted string. -/
def tokenize (s : List Char) : Option (List Tok) :=
  tokenizeAux s.length s

/-- Python floor `⌊q⌋` (`Int.fdiv` rounds toward `-∞`; `q.den > 0`). -/
def ratFloor (q : ℚ) : ℤ :=
  Int.fdiv q.num (q.den : ℤ)

/-- Python `**` on the model: exact for integer exponents,
`ZeroDivisionError` for `0 ** negative`; non-integer exponents (an
irrational float/complex result in Python) are outside the rational
model and mapped to an error. -/
def powQ (b e : ℚ) : Except String ℚ :=
  if e.den = 1 then
    if b = 0 ∧ e.num < 0 then .error "division by zero"
    else .ok (qzpow b e.num)
  else .error "unsupported exponent"

/-- Parser modes: Python's arithmetic precedence levels
(`expr` = additive, `term` = multiplicative, `factor` = unary,
`power` = `**`, `atom` = literal/parenthesised), with explicit loop
modes carrying the left-accumulated value for the two
left-associative levels. -/
inductive PMode where
  | expr | exprLoop | term | termLoop | factor | power | atom
deriving DecidableEq, Repr

/-- Precedence-climbing evaluator over the token stream, mirroring
Python's grammar for the whitelisted operators, evaluating as it
parses (left to right, so a division by zero surfaces exactly where
Python raises it).  `acc` is meaningful only in the loop modes.  Fuel
decreases on every call; the recursion depth between two consumed
tokens is bounded by the number of precedence levels, so the fuel
passed by `evalArith` is sufficient and the fuel-exhausted branch is
unreachable. -/
def pa : Nat → PMode → ℚ → List Tok → Except String (ℚ × List Tok)
  | 0, _, _, _ => .error "invalid syntax"
  | fuel + 1, mode, acc, ts =>
      match mode with
      | .expr => do
          let (v, r) ← pa fuel .term 0 ts
          pa fuel .exprLoop v r
      | .exprLoop =>
          match ts with
          | .plus :: r => do
              let (w, r2) ← pa fuel .term 0 r
              pa fuel .exprLoop (acc + w) r2
          | .minus :: r => do
              let (w, r2) ← pa fuel .term 0 r
              pa fuel .exprLoop (acc - w) r2
          | _ => .ok (acc, ts)
      | .term => do
          let (v, r) ← pa fuel .factor 0 ts
          pa fuel .termLoop v r
      | .termLoop =>
          match ts with
          | .star :: r => do
              let (w, r2) ← pa fuel .factor 0 r
              pa fuel .termLoop (acc * w) r2
          | .slash :: r => do
              let (w, r2) ← pa fuel .factor 0 r
              if w = 0 then .error "division by zero"
              else pa fuel .termLoop (acc / w) r2
          | .dslash :: r => do
              let (w, r2) ← pa fuel .factor 0 r
              if w = 0 then .error "division by zero"
              else pa fuel .termLoop ((ratFloor (acc / w) : ℚ)) r2
          | _ => .ok (acc, ts)
      | .factor =>
          match ts with
          | .minus :: r => do
              let (v, r2) ← pa fuel .factor 0 r
              .ok (-v, r2)
          | .plus :: r => pa fuel .factor 0 r
          | _ => pa fuel .power 0 ts
      | .power => do
          let (b, r) ← pa fuel .atom 0 ts
          match r with
          | .dstar :: r2 => do
              let (e, r3) ← pa fuel .factor 0 r2
              match powQ b e with
              | .ok q => .ok (q, r3)
              | .error msg => .error msg
          | _ => .ok (b, r)
      | .atom =>
          match ts with
          | .num v :: r => .ok (v, r)
          | .lp :: r => do
              let (v, r2) ← pa fuel .expr 0 r
              match r2 with
              | .rp :: r3 => .ok (v, r3)
              | _ => .error "invalid syntax"
          | _ => .error "invalid syntax"

/-- The model of `eval` on a whitelisted string: tokenize, parse a full
expression, require the whole stream to be consumed. -/
def evalArith (s : List Char) : Except String ℚ :=
  match tokenize s with
  | none => .error "invalid syntax"
  | some ts =>
      match pa (8 * ts.length + 8) .expr 0 ts with
      | .error e => .error e
      | .ok (v, []) => .ok v
      | .ok (_, _ :: _) => .error "invalid syntax"

/-- Model of `_safe_eval`: strip; `ValueError` (ValidationError) if empty or if
any character falls outside `_SAFE_MATH_RE`; otherwise evaluate,
mapping any evaluation failure to ArithmeticError. -/
def safeEval (mathStr : List Char) : Except EvalError ℚ :=
  let cleaned := pyStrip mathStr
  if cleaned = [] then .error (.validationError "Empty expression")
  else if ¬ (∀ c ∈ cleaned, isSafeChar c = true) then
    .error (.validationError ("Invalid characters in expression: " ++ String.mk cleaned))
  else
    match evalArith cleaned with
    | .ok v => .ok v
    | .error e => .error (.arithmeticError e)

/-! ## Result formatter -/

/-- Python `round(q)`: round half to even (banker's rounding). -/
def pyRound (q : ℚ) : ℤ :=
  let f := ratFloor q
  let r := q - (f : ℚ)
  if r < 1 / 2 then f
  else if 1 / 2 < r then f + 1
  else if f % 2 = 0 then f else f + 1

/-- Python `round(q, 1)`: round to one decimal, half to even. -/
def pyRound1 (q : ℚ) : ℚ :=
  (pyRound (10 * q) : ℚ) / 10

/-- Python `f"{x:g}"` on the values `_format_magnitude` feeds it:
`round(value, 1)` always returns a multiple of `0.1` of modest size
there, for which `%g` prints the integer part and, when nonzero, one
decimal digit (no exponent, trailing zeros dropped). -/
def gFormat (q : ℚ) : String :=
  let z : ℤ := ratFloor (10 * q)
  if z = 0 then "0"
  else
    let n : ℕ := z.natAbs
    let sign := if z < 0 then "-" else ""
    let fpart := if n % 10 = 0 then "" else "." ++ toString (n % 10)
    sign ++ toString (n / 10) ++ fpart

/-- Model of `_format_magnitude`: show an integer when within 5% of a nonzero
integer (with `~` unless exact or within 0.01), otherwise `~` and the
value rounded to one decimal. -/
def formatMagnitude (value : ℚ) : String :=
  if value = 0 then "0"
  else
    let ri := pyRound value
    if ri ≠ 0 ∧ |value - (ri : ℚ)| / |(ri : ℚ)| < 1 / 20 then
      if value = (ri : ℚ) ∨ |value - (ri : ℚ)| < 1 / 100 then toString ri
      else "~" ++ toString ri
    else "~" ++ gFormat (pyRound1 value)

/-- Table `_NUMBER_THRESHOLDS`. -/
def NUMBER_THRESHOLDS : List (ℚ × String) :=
  [(1000000000000, "trillion"), (1000000000, "billion"),
   (1000000, "million"), (1000, "K")]

/-- The scan of `_format_number`: first threshold `≤ |value|` wins;
no separator before a single-character word. -/
def formatNumberGo (value : ℚ) (rate : String) : List (ℚ × String) → String
  | [] => formatMagnitude value ++ rate
  | (t, word) :: rest =>
      if t ≤ |value| then
        formatMagnitude (value / t) ++ (if word.length ≤ 1 then "" else " ") ++ word ++ rate
      else formatNumberGo value rate rest

/-- Model of `_format_number`. -/
def formatNumber (value : ℚ) (rate : String) : String :=
  formatNumberGo value rate NUMBER_THRESHOLDS

/-- Table `_BYTE_THRESHOLDS`, in the source's strictly descending order. -/
def BYTE_THRESHOLDS : List (ℚ × DataUnit × String) :=
  [(1000000000000000, .petabyte, "PB"),
   (1000000000000, .terabyte, "TB"),
   (1000000000, .gigabyte, "GB"),
   (1000000, .megabyte, "MB"),
   (1000, .kilobyte, "KB"),
   (1, .byte, "bytes")]

/-- The `for ... else` scan over `_BYTE_THRESHOLDS`: first threshold
`≤ |v|` wins (converting `v` into that unit); falling through every
row displays the raw value as `bytes`. -/
def byteAutoGo (v : ℚ) (rl : String) : List (ℚ × DataUnit × String) → String
  | [] => formatMagnitude v ++ " bytes" ++ rl
  | (t, u, lab) :: rest =>
      if t ≤ |v| then formatMagnitude (v / bytesOf u) ++ " " ++ lab ++ rl
      else byteAutoGo v rl rest

/-- Byte auto-selection applied to a value in bytes. -/
def byteThresholdDisplay (v : ℚ) (rl : String) : String :=
  byteAutoGo v rl BYTE_THRESHOLDS

/-- Lookup `_RATE_UNITS.get(rate)` (an unknown rate behaves like `None`). -/
def rateTimeUnit (rate : String) : Option TimeUnit :=
  match List.lookup rate RATE_UNITS with
  | some v => v
  | none => none

/-- The target-unit resolution path shared by the byte-quantity and
pure-number branches of `evaluate`: a concrete target converts to
exactly that unit (`ValueError` → UnknownUnitError when the target is
not in `_BYTE_UNITS`), otherwise the byte thresholds auto-select. -/
def targetOrAuto (valueInBytes : ℚ) (targetUnit : String) (rateLabel : String) :
    Except EvalError String :=
  if targetUnit ≠ "auto" ∧ targetUnit ≠ "none" then
    match List.lookup (lowerChars targetUnit.data) BYTE_UNITS with
    | none => .error (.unknownUnitError ("Unknown target unit: " ++ targetUnit))
    | some pt =>
        .ok (formatMagnitude (valueInBytes / bytesOf pt) ++ " " ++ targetUnit ++ rateLabel)
  else .ok (byteThresholdDisplay valueInBytes rateLabel)

/-- The display-selection chain of `evaluate` (its `if/elif/else` over
the parsed unit tags, the requested rate and the target unit).  When a
data unit AND a time divisor are present but no rate is recognized,
the source still enters the byte-quantity branch, where
`quantity.to('byte')` on a bytes-per-time quantity raises pint's
DimensionalityError before any target-unit check; that exception is
modelled by the `dimensionalityError` value. -/
def displayFor (magnitude : ℚ) (du : Option DataUnit) (tu : Option TimeUnit)
    (targetUnit rate : String) : Except EvalError String :=
  let rateLabel := if rate = "none" then "" else rate
  match tu, rateTimeUnit rate, du with
  | some t, some ru, some d =>
      .ok (byteThresholdDisplay (magnitude * bytesOf d * secondsOf ru / secondsOf t) rateLabel)
  | some t, some ru, none =>
      .ok (formatNumber (magnitude * secondsOf ru / secondsOf t) rateLabel)
  | some _, none, some _ =>
      .error (.dimensionalityError "Cannot convert a quantity with a time divisor to 'byte'")
  | none, _, some d => targetOrAuto (magnitude * bytesOf d) targetUnit rateLabel
  | some t, none, none => .ok (formatNumber (magnitude / secondsOf t) "/s")
  | none, _, none =>
      if targetUnit ≠ "auto" ∧ targetUnit ≠ "none" then
        match List.lookup (lowerChars targetUnit.data) BYTE_UNITS with
        | none => .error (.unknownUnitError ("Unknown target unit: " ++ targetUnit))
        | some pt =>
            .ok (formatMagnitude (magnitude / bytesOf pt) ++ " " ++ targetUnit ++ rateLabel)
      else .ok (formatNumber magnitude rateLabel)

/-! ## Public entry point -/

/-- The dict returned by `evaluate`. -/
structure Result where
  expression : String
  result_display : String
  raw_value : ℚ
deriving DecidableEq, Repr

/-- Model of `evaluate(expression, target_unit, rate)`: preprocess, extract
units, safely evaluate, then format.  Errors propagate immediately. -/
def evaluate (expression : String) (targetUnit : String := "auto")
    (rate : String := "none") : Except EvalError Result :=
  let parsed := parseUnits (preprocessScale expression.data)
  match safeEval parsed.1 with
  | .error e => .error e
  | .ok magnitude =>
      match displayFor magnitude parsed.2.1 parsed.2.2 targetUnit rate with
      | .error e => .error e
      | .ok display => .ok ⟨expression, display, magnitude⟩

/-! ## Helper lemmas -/

theorem mem_of_mem_pyStrip {c : Char} {l : List Char} (h : c ∈ pyStrip l) : c ∈ l := by
  unfold pyStrip dropTrailing at h
  rw [List.mem_reverse] at h
  have h2 := (List.dropWhile_sublist _).subset h
  rw [List.mem_reverse] at h2
  exact (List.dropWhile_sublist _).subset h2

theorem mem_dropWhile_of_not {c : Char} {l : List Char}
    (hc : c ∈ l) (hs : isSpaceChar c = false) : c ∈ l.dropWhile isSpaceChar := by
  induction l with
  | nil => simp at hc
  | cons a t ih =>
      rw [List.dropWhile_cons]
      cases hb : isSpaceChar a with
      | true =>
          rw [if_pos rfl]
          rcases List.mem_cons.mp hc with h | h
          · subst h; rw [hs] at hb; cases hb
          · exact ih h
      | false => rw [if_neg (by simp)]; exact hc

theorem mem_pyStrip_of_not_space {c : Char} {l : List Char}
    (hc : c ∈ l) (hs : isSpaceChar c = false) : c ∈ pyStrip l := by
  unfold pyStrip dropTrailing
  rw [List.mem_reverse]
  apply mem_dropWhile_of_not _ hs
  rw [List.mem_reverse]
  exact mem_dropWhile_of_not hc hs

theorem isSafeChar_of_space {c : Char} (h : isSpaceChar c = true) : isSafeChar c = true := by
  unfold isSafeChar
  rw [h]
  simp

/-- The model `_safe_eval` returns its `ValueError` (ValidationError) exactly on an
empty-after-trim residual or a residual containing a character outside
the whitelist. -/
theorem safeEval_validation_iff (ms : List Char) :
    (∃ msg, safeEval ms = .error (.validationError msg)) ↔
      (pyStrip ms = [] ∨ ∃ c ∈ ms, isSafeChar c = false) := by
  unfold safeEval
  by_cases h1 : pyStrip ms = []
  · simp [h1]
  · rw [if_neg h1]
    by_cases h2 : ∀ c ∈ pyStrip ms, isSafeChar c = true
    · rw [if_neg (by simpa using h2)]
      constructor
      · rintro ⟨msg, hmsg⟩
        cases he : evalArith (pyStrip ms) <;> rw [he] at hmsg <;> simp at hmsg
      · rintro (h | ⟨c, hc, hbad⟩)
        · exact absurd h h1
        · have hns : isSpaceChar c = false := by
            cases hsp : isSpaceChar c with
            | true => rw [isSafeChar_of_space hsp] at hbad; cases hbad
            | false => rfl
          have := h2 c (mem_pyStrip_of_not_space hc hns)
          rw [this] at hbad
          cases hbad
    · rw [if_pos (by simpa using h2)]
      constructor
      · intro _
        right
        push_neg at h2
        obtain ⟨c, hc, hbad⟩ := h2
        exact ⟨c, mem_of_mem_pyStrip hc, by simpa using hbad⟩
      · intro _
        exact ⟨_, rfl⟩

/-- Every error produced by the display-selection chain is either an
UnknownUnitError or the modelled pint DimensionalityError — never a
ValidationError or ArithmeticError. -/
theorem displayFor_error_kinds (m : ℚ) (du : Option DataUnit) (tu : Option TimeUnit)
    (t r : String) (e : EvalError) (h : displayFor m du tu t r = .error e) :
    (∃ msg, e = .unknownUnitError msg) ∨ (∃ msg, e = .dimensionalityError msg) := by
  unfold displayFor targetOrAuto at h
  repeat' split at h
  all_goals dsimp only at h
  all_goals first
    | exact Except.noConfusion h
    | exact Or.inl ⟨_, (Except.error.inj h).symm⟩
    | exact Or.inr ⟨_, (Except.error.inj h).symm⟩

/-- The rate label is a pure suffix of the byte-threshold display. -/
theorem byteAutoGo_rateLabel (v : ℚ) (rl : String) :
    ∀ L : List (ℚ × DataUnit × String), byteAutoGo v rl L = byteAutoGo v "" L ++ rl := by
  intro L
  induction L with
  | nil =>
      unfold byteAutoGo
      rw [String.append_empty]
  | cons hd tl ih =>
      rcases hd with ⟨t, u, lab⟩
      unfold byteAutoGo
      by_cases hc : t ≤ |v|
      · rw [if_pos hc, if_pos hc, String.append_empty]
      · rw [if_neg hc, if_neg hc]
        exact ih

/-- The rate label is a pure suffix of the target-or-auto display. -/
theorem targetOrAuto_rateLabel (v : ℚ) (t rl : String) :
    targetOrAuto v t rl = (targetOrAuto v t "").map (fun s => s ++ rl) := by
  unfold targetOrAuto
  by_cases hc : t ≠ "auto" ∧ t ≠ "none"
  · rw [if_pos hc, if_pos hc]
    cases List.lookup (lowerChars t.data) BYTE_UNITS with
    | none => rfl
    | some pt =>
        show Except.ok _ = Except.map _ (Except.ok _)
        rw [Except.map, String.append_empty]
  · rw [if_neg hc, if_neg hc]
    show Except.ok _ = Except.map _ (Except.ok _)
    rw [Except.map]
    unfold byteThresholdDisplay
    rw [byteAutoGo_rateLabel]

/-- With no time divisor parsed from the expression, the display chain
always resolves the target unit (whether or not a data unit is
present), so an unrecognized target unit fails with the
UnknownUnitError naming it. -/
theorem displayFor_unknownUnit (m : ℚ) (du : Option DataUnit)
    (t r : String) (h1 : t ≠ "auto") (h2 : t ≠ "none")
    (hl : List.lookup (lowerChars t.data) BYTE_UNITS = none) :
    displayFor m du none t r = .error (.unknownUnitError ("Unknown target unit: " ++ t)) := by
  cases du with
  | some d =>
      unfold displayFor targetOrAuto
      dsimp only
      rw [if_pos ⟨h1, h2⟩, hl]
  | none =>
      unfold displayFor
      dsimp only
      rw [if_pos ⟨h1, h2⟩, hl]

/-- A successful `evaluate` call echoes the input expression and
returns the magnitude computed by `_safe_eval` untouched. -/
theorem evaluate_ok_fields (expr t r : String) (res : Result)
    (h : evaluate expr t r = .ok res) :
    res.expression = expr ∧
      safeEval (parseUnits (preprocessScale expr.data)).1 = .ok res.raw_value := by
  unfold evaluate at h
  dsimp only at h
  cases hse : safeEval (parseUnits (preprocessScale expr.data)).1 with
  | error e => rw [hse] at h; dsimp only at h; exact Except.noConfusion h
  | ok mval =>
      rw [hse] at h
      dsimp only at h
      cases hd : displayFor mval (parseUnits (preprocessScale expr.data)).2.1
          (parseUnits (preprocessScale expr.data)).2.2 t r with
      | error e => rw [hd] at h; exact Except.noConfusion h
      | ok disp =>
          rw [hd] at h
          have hres : res = ⟨expr, disp, mval⟩ := (Except.ok.inj h).symm
          subst hres
          exact ⟨rfl, rfl⟩

/-! ## Claim theorems -/

/-- C1: `evaluate "30 billion * 500 bytes"` with `target_unit = "auto"`
and `rate = "none"` returns raw magnitude `1.5e13` and display
`"15 TB"` (the byte auto-threshold selects terabyte). -/
theorem c1_thirty_billion_bytes_display :
    evaluate "30 billion * 500 bytes" "auto" "none" =
      .ok ⟨"30 billion * 500 bytes", "15 TB", 15000000000000⟩ := by
  with_unfolding_all rfl

/-- C3: byte auto-selection scans the threshold table in the source's
strictly descending order with first match winning: every magnitude in
`[10^3, 10^6)` selects the kilobyte row, every magnitude below `1`
(including `0`) falls through every row to the raw `bytes` branch, a
magnitude of exactly `1000` bytes displays `"1 KB"`, and `0` bytes
displays `"0 bytes"`. -/
theorem c3_byte_threshold_selection :
    (∀ (v : ℚ) (rl : String), 1000 ≤ |v| → |v| < 1000000 →
        byteThresholdDisplay v rl = formatMagnitude (v / 1000) ++ " " ++ "KB" ++ rl) ∧
    (∀ (v : ℚ) (rl : String), |v| < 1 →
        byteThresholdDisplay v rl = formatMagnitude v ++ " bytes" ++ rl) ∧
    evaluate "1000 bytes" "auto" "none" = .ok ⟨"1000 bytes", "1 KB", 1000⟩ ∧
    evaluate "0 bytes" "auto" "none" = .ok ⟨"0 bytes", "0 bytes", 0⟩ := by
  refine ⟨?_, ?_, ?_, ?_⟩
  · intro v rl h1 h2
    unfold byteThresholdDisplay BYTE_THRESHOLDS
    simp only [byteAutoGo]
    rw [if_neg (by intro hx; linarith), if_neg (by intro hx; linarith),
      if_neg (by intro hx; linarith), if_neg (by intro hx; linarith), if_pos h1]
    simp [bytesOf]
  · intro v rl h1
    unfold byteThresholdDisplay BYTE_THRESHOLDS
    simp only [byteAutoGo]
    rw [if_neg (by intro hx; linarith), if_neg (by intro hx; linarith),
      if_neg (by intro hx; linarith), if_neg (by intro hx; linarith),
      if_neg (by intro hx; linarith), if_neg (by intro hx; linarith)]
  · with_unfolding_all rfl
  · with_unfolding_all rfl

/-- C3 witness: instantiating the kilobyte-band clause at `v = 1000`. -/
theorem c3_threshold_witness :
    byteThresholdDisplay 1000 "" = formatMagnitude (1000 / 1000) ++ " " ++ "KB" ++ "" :=
  c3_byte_threshold_selection.1 1000 "" (by norm_num) (by norm_num)

/-- C5: with a time divisor, no data unit and `rate = "none"`, the
display defaults to a word-formatted per-second count:
`evaluate "500 million / month"` returns raw magnitude `5e8` and
display `"~193/s"` (500e6 / 2,592,000 s ≈ 192.9). -/
theorem c5_default_per_second :
    evaluate "500 million / month" "auto" "none" =
      .ok ⟨"500 million / month", "~193/s", 500000000⟩ := by
  with_unfolding_all rfl

/-- C6: a suffix-multiplier match never fires when the letter is
immediately followed by another letter (whenever the matcher succeeds,
the first unconsumed character is not a letter), and preprocessing
leaves `"5 MB"` unchanged rather than rewriting it to `"5 1e6B"`. -/
theorem c6_suffix_negative_lookahead :
    (∀ (letter : Char) (rep s out rest : List Char) (c : Char),
        trySuffix letter rep s = some (out, rest) → rest.head? = some c →
          isAsciiLetter c = false) ∧
    preprocessScale "5 MB".data = "5 MB".data := by
  constructor
  · intro letter rep s out rest c hmatch hhead
    unfold trySuffix at hmatch
    cases hm : matchNumFrom s with
    | none => rw [hm] at hmatch; exact Option.noConfusion hmatch
    | some nr =>
        rcases nr with ⟨numStr, r⟩
        rw [hm] at hmatch
        dsimp only at hmatch
        cases hr2 : List.dropWhile isSpaceChar r with
        | nil => rw [hr2] at hmatch; exact Option.noConfusion hmatch
        | cons c0 r3 =>
            rw [hr2] at hmatch
            dsimp only at hmatch
            split at hmatch
            · rename_i hcond
              have hpair := Option.some.inj hmatch
              have hrest : r3 = rest := congrArg Prod.snd hpair
              have hnot := (Bool.and_eq_true _ _ |>.mp hcond).2
              rw [hrest] at hnot
              cases hr3 : rest with
              | nil => rw [hr3] at hhead; exact Option.noConfusion hhead
              | cons d tl =>
                  rw [hr3] at hhead hnot
                  have hc : c = d := (Option.some.inj hhead).symm
                  subst hc
                  simpa using hnot
            · exact Option.noConfusion hmatch
  · decide

/-- C6 witness: the matcher clause applied at the concrete match of
`"5K)"`, whose first unconsumed character is `)`. -/
theorem c6_suffix_witness : isAsciiLetter ')' = false :=
  c6_suffix_negative_lookahead.1 'K' "e3".data "5K)".data "5e3".data [')'] ')'
    (by decide) rfl

/-- C10: the whitelist admits multi-character operator sequences: the
residual string `"2**10"` passes character validation and the guarded
evaluator computes exponentiation, returning `1024` (and the full
pipeline displays it as `"~1K"`). -/
theorem c10_exponentiation_allowed :
    (∀ c ∈ "2**10".data, isSafeChar c = true) ∧
    safeEval "2**10".data = .ok 1024 ∧
    evaluate "2**10" "auto" "none" = .ok ⟨"2**10", "~1K", 1024⟩ := by
  refine ⟨by decide, ?_, ?_⟩
  · with_unfolding_all rfl
  · with_unfolding_all rfl

/-- C2 (amended): for every input, `evaluate` raises a ValidationError
exactly when the residual arithmetic string (after scale preprocessing
and unit stripping) is empty after trimming or contains a character
outside the safe set; an expression with an empty residual, such as
`evaluate "bytes"`, raises the ValidationError.  (`evaluate "10 /"`
leaves the nonempty all-safe residual `"10 /"` and fails in arithmetic
evaluation instead — see the counterexample.) -/
theorem c2_validation_condition :
    (∀ (expr targetUnit rate : String),
        (∃ msg, evaluate expr targetUnit rate = .error (.validationError msg)) ↔
          (pyStrip (parseUnits (preprocessScale expr.data)).1 = [] ∨
            ∃ c ∈ (parseUnits (preprocessScale expr.data)).1, isSafeChar c = false)) ∧
    evaluate "bytes" "auto" "none" = .error (.validationError "Empty expression") := by
  constructor
  · intro expr t r
    rw [← safeEval_validation_iff]
    constructor
    · rintro ⟨msg, hmsg⟩
      unfold evaluate at hmsg
      dsimp only at hmsg
      cases hse : safeEval (parseUnits (preprocessScale expr.data)).1 with
      | error e =>
          rw [hse] at hmsg
          dsimp only at hmsg
          have he := Except.error.inj hmsg
          exact ⟨msg, by rw [he]⟩
      | ok m =>
          rw [hse] at hmsg
          dsimp only at hmsg
          cases hd : displayFor m (parseUnits (preprocessScale expr.data)).2.1
              (parseUnits (preprocessScale expr.data)).2.2 t r with
          | error e =>
              rw [hd] at hmsg
              dsimp only at hmsg
              rcases displayFor_error_kinds _ _ _ _ _ _ hd with ⟨msg2, he2⟩ | ⟨msg2, he2⟩ <;>
                (rw [he2] at hmsg; exact EvalError.noConfusion (Except.error.inj hmsg))
          | ok disp =>
              rw [hd] at hmsg
              exact Except.noConfusion hmsg
    · rintro ⟨msg, hmsg⟩
      refine ⟨msg, ?_⟩
      unfold evaluate
      dsimp only
      rw [hmsg]
  · with_unfolding_all rfl

/-- C2 counterexample: `evaluate "10 /"` does NOT raise a
ValidationError as the claim states; the residual `"10 /"` is nonempty
and all-safe, so the failure surfaces in arithmetic evaluation. -/
theorem c2_ten_slash_counterexample :
    evaluate "10 /" "auto" "none" = .error (.arithmeticError "invalid syntax") := by
  with_unfolding_all rfl

/-- C2 witness: the equivalence instantiated at `"bytes"`, whose
residual is empty after unit stripping. -/
theorem c2_empty_residual_witness :
    ∃ msg, evaluate "bytes" "auto" "none" = .error (.validationError msg) :=
  (c2_validation_condition.1 "bytes" "auto" "none").mpr (Or.inl (by decide))

/-- C7: for every call whose residual passes character validation
(nonempty after trimming, all characters safe), a failure of arithmetic
evaluation — division by zero, malformed parenthesization, ... — makes
`evaluate` raise an ArithmeticError carrying that failure, and a
success makes `_safe_eval` return the evaluated magnitude. -/
theorem c7_arithmetic_error_propagation (expr targetUnit rate : String)
    (hne : pyStrip (parseUnits (preprocessScale expr.data)).1 ≠ [])
    (hsafe : ∀ c ∈ pyStrip (parseUnits (preprocessScale expr.data)).1, isSafeChar c = true) :
    (∀ e, evalArith (pyStrip (parseUnits (preprocessScale expr.data)).1) = .error e →
        evaluate expr targetUnit rate = .error (.arithmeticError e)) ∧
    (∀ v, evalArith (pyStrip (parseUnits (preprocessScale expr.data)).1) = .ok v →
        safeEval (parseUnits (preprocessScale expr.data)).1 = .ok v) := by
  have hsafeEval : ∀ x, evalArith (pyStrip (parseUnits (preprocessScale expr.data)).1) = x →
      safeEval (parseUnits (preprocessScale expr.data)).1 =
        (match x with
          | .ok v => .ok v
          | .error e => .error (.arithmeticError e)) := by
    intro x hx
    unfold safeEval
    dsimp only
    rw [if_neg hne, if_neg (not_not_intro hsafe), hx]
  constructor
  · intro e he
    unfold evaluate
    dsimp only
    rw [hsafeEval _ he]
  · intro v hv
    exact hsafeEval _ hv

/-- C7 witness: division by zero at `"1/0"` propagates as an
ArithmeticError out of `evaluate`. -/
theorem c7_division_by_zero_witness :
    evaluate "1/0" "auto" "none" = .error (.arithmeticError "division by zero") :=
  (c7_arithmetic_error_propagation "1/0" "auto" "none" (by decide) (by decide)).1
    "division by zero" (by with_unfolding_all rfl)

/-- C8: a successful `evaluate` echoes the input expression verbatim in
the `expression` field, and the `raw_value` field is independent of the
`target_unit` and `rate` arguments: any two succeeding calls on the
same expression agree on both fields. -/
theorem c8_raw_value_independent (expr t1 r1 t2 r2 : String) (res1 res2 : Result)
    (h1 : evaluate expr t1 r1 = .ok res1) (h2 : evaluate expr t2 r2 = .ok res2) :
    res1.expression = expr ∧ res2.expression = expr ∧ res1.raw_value = res2.raw_value := by
  obtain ⟨he1, hv1⟩ := evaluate_ok_fields expr t1 r1 res1 h1
  obtain ⟨he2, hv2⟩ := evaluate_ok_fields expr t2 r2 res2 h2
  refine ⟨he1, he2, ?_⟩
  rw [hv1] at hv2
  exact Except.ok.inj hv2

/-- C8 witness: the calls `evaluate "1" "auto" "none"` and
`evaluate "1" "none" "/s"` both succeed and agree on expression and raw
value. -/
theorem c8_two_calls_witness :
    (Result.mk "1" "1" 1).expression = "1" ∧
    (Result.mk "1" "1/s" 1).expression = "1" ∧
    (Result.mk "1" "1" 1).raw_value = (Result.mk "1" "1/s" 1).raw_value :=
  c8_raw_value_independent "1" "auto" "none" "none" "/s" ⟨"1", "1", 1⟩ ⟨"1", "1/s", 1⟩
    (by with_unfolding_all rfl) (by with_unfolding_all rfl)

/-- C4 (amended): an unrecognized `target_unit` (neither `"auto"` nor
`"none"` nor case-insensitively in the byte-unit table) makes
`evaluate` fail with an UnknownUnitError naming it, provided the
arithmetic stage succeeded and the expression has no time divisor
(then the formatter resolves the target unit whether or not a data
unit is present).  When a time divisor is present the bad target unit
is never consulted: the call converts the rate, defaults to
per-second, or — with a data unit and no recognized rate — fails
earlier with the unit library's DimensionalityError (see the
counterexample). -/
theorem c4_unknown_target_unit (expr targetUnit rate : String) (m : ℚ)
    (h1 : targetUnit ≠ "auto") (h2 : targetUnit ≠ "none")
    (hl : List.lookup (lowerChars targetUnit.data) BYTE_UNITS = none)
    (hse : safeEval (parseUnits (preprocessScale expr.data)).1 = .ok m)
    (htu : (parseUnits (preprocessScale expr.data)).2.2 = none) :
    evaluate expr targetUnit rate =
      .error (.unknownUnitError ("Unknown target unit: " ++ targetUnit)) := by
  unfold evaluate
  dsimp only
  rw [hse]
  dsimp only
  rw [htu]
  rw [displayFor_unknownUnit m _ _ _ h1 h2 hl]

/-- C4 counterexample: the claim demands an UnknownUnitError for EVERY
call with an unrecognized target unit, but on the default-per-second
path the target unit is never examined: `evaluate "1 / s"` with
`target_unit = "XB"` succeeds. -/
theorem c4_rate_path_counterexample :
    evaluate "1 / s" "XB" "none" = .ok ⟨"1 / s", "1/s", 1⟩ := by
  with_unfolding_all rfl

/-- C4 witness: `evaluate "1 + 1"` with `target_unit = "XB"` (a pure
number, hence a target-resolution path) raises the UnknownUnitError
naming `"XB"`. -/
theorem c4_xb_witness :
    evaluate "1 + 1" "XB" "none" = .error (.unknownUnitError "Unknown target unit: XB") :=
  c4_unknown_target_unit "1 + 1" "XB" "none" 2 (by decide) (by decide) (by decide)
    (by with_unfolding_all rfl) (by decide)

/-- C9: when the expression carries a data unit and no time divisor,
a rate other than `"none"` performs no conversion at all: the call
returns exactly the `rate = "none"` result with the rate string
appended to the display; in particular `evaluate "5 MB"` with
`rate = "/s"` displays `"5 MB/s"` with the same value as with
`rate = "none"`. -/
theorem c9_rate_label_appended :
    (∀ (expr targetUnit rate : String) (res : Result) (ms : List Char) (du : DataUnit),
        rate ≠ "none" →
        parseUnits (preprocessScale expr.data) = (ms, some du, none) →
        evaluate expr targetUnit "none" = .ok res →
        evaluate expr targetUnit rate =
          .ok ⟨res.expression, res.result_display ++ rate, res.raw_value⟩) ∧
    evaluate "5 MB" "auto" "/s" = .ok ⟨"5 MB", "5 MB/s", 5⟩ ∧
    evaluate "5 MB" "auto" "none" = .ok ⟨"5 MB", "5 MB", 5⟩ := by
  refine ⟨?_, by with_unfolding_all rfl, by with_unfolding_all rfl⟩
  intro expr t r res ms du hr hp h
  unfold evaluate at h ⊢
  dsimp only at h ⊢
  rw [hp] at h ⊢
  dsimp only at h ⊢
  unfold displayFor at h ⊢
  dsimp only at h ⊢
  rw [if_neg hr]
  rw [if_pos rfl] at h
  generalize safeEval ms = sev at h ⊢
  cases sev with
  | error e => dsimp only at h; exact Except.noConfusion h
  | ok m =>
      dsimp only at h ⊢
      rw [targetOrAuto_rateLabel (m * bytesOf du) t r]
      generalize targetOrAuto (m * bytesOf du) t "" = ta at h ⊢
      cases ta with
      | error e => dsimp only at h; exact Except.noConfusion h
      | ok s =>
          dsimp only at h ⊢
          have hres : res = ⟨expr, s, m⟩ := (Except.ok.inj h).symm
          subst hres
          rfl

/-- C9 witness: the universal clause instantiated at `"5 MB"` with
`rate = "/s"`. -/
theorem c9_five_mb_witness :
    evaluate "5 MB" "auto" "/s" = .ok ⟨"5 MB", "5 MB" ++ "/s", 5⟩ :=
  c9_rate_label_appended.1 "5 MB" "auto" "/s" ⟨"5 MB", "5 MB", 5⟩ "5".data .megabyte
    (by decide) (by decide) (by with_unfolding_all rfl)
